import Mathlib

/-!
Verification of the data-ingestion pipeline in `ProyectoFinal.py`.

The pipeline's table-valued data is modelled shallowly: a cell value is a
`Value`, a row is an association list from column names to values, and a
data frame carries an ordered column list together with its rows.  The
source functions `save_new_data_as_delta`, `save_data_as_delta`,
`explode_columns`, `get_data` and `build_table_incremental` are translated
into Lean functions over this model.  External-library primitives the code
calls (the deltalake merge and write, pandas `explode`, `requests`
status handling, `strftime`) are modelled from their documented semantics
where the specification describes them, as noted on each definition.
-/

/-- A scalar cell value: an integer, a string, a calendar date, or a
null (pandas `NaN` / missing). -/
inductive Scalar where
| intS : Int → Scalar
| strS : String → Scalar
| dateS : Nat → Nat → Nat → Scalar
| nullS : Scalar
deriving DecidableEq

/-- A cell value of a tabular row: a scalar, or a list of scalars (a
multivalued cell before explosion, such as the `Routes` column). -/
inductive Value where
| scal : Scalar → Value
| listV : List Scalar → Value
deriving DecidableEq

/-- Shorthand for an integer cell. -/
def vInt (n : Int) : Value := Value.scal (Scalar.intS n)

/-- Shorthand for a string cell. -/
def vStr (s : String) : Value := Value.scal (Scalar.strS s)

/-- Shorthand for a null cell. -/
def vNull : Value := Value.scal Scalar.nullS

/-- A row: an association list from column name to cell value. -/
abbrev Row := List (String × Value)

/-- A data frame: an ordered list of column names and the rows. -/
structure Frame where
  cols : List String
  rows : List Row
deriving DecidableEq

/-- Read a cell of a row, `nullV` when the column is absent (pandas yields
`NaN` for a missing entry). -/
def getCell (r : Row) (c : String) : Value :=
  (List.lookup c r).getD vNull

/-- `df_origin[cols_to_select]` applied to one row: keep exactly the
selected columns, in selection order. -/
def selectRow (sel : List String) (r : Row) : Row :=
  sel.map (fun c => (c, getCell r c))

/-- `df_origin[cols_to_select].copy()` (line 156): restrict the frame to
the selected columns. -/
def selectFrame (df : Frame) (sel : List String) : Frame :=
  ⟨sel, df.rows.map (selectRow sel)⟩

/-- `isinstance(x, list)` test on the cell of column `c` (line 161). -/
def isListCell (r : Row) (c : String) : Bool :=
  match List.lookup c r with
  | some (Value.listV _) => true
  | _ => false

/-- Overwrite every binding of column `c` in a row with value `v`. -/
def setCol (r : Row) (c : String) (v : Value) : Row :=
  r.map (fun p => if p.1 = c then (c, v) else p)

/-- Modelled from the documented pandas `DataFrame.explode` semantics used
at line 162: a list cell of length N produces N rows, one per element in
order; an empty list produces a single row whose exploded cell is null
(`NaN`); a non-list cell leaves the row unchanged. -/
def explodeRow (r : Row) (c : String) : List Row :=
  match List.lookup c r with
  | some (Value.listV []) => [setCol r c vNull]
  | some (Value.listV l) => l.map (fun v => setCol r c (Value.scal v))
  | _ => [r]

/-- `df_result = df_result.explode(col_to_explode)` (line 162) on the
whole frame. -/
def Frame.explodeCol (f : Frame) (c : String) : Frame :=
  ⟨f.cols, (f.rows.map (fun r => explodeRow r c)).flatten⟩

/-- Result alternatives of `explode_columns`: the Python code catches
`KeyError` (a requested column is absent) separately from any other
exception, prints a diagnostic and returns `None` in both cases. -/
inductive ExplodeErr where
| missingColumn
| otherErr
deriving DecidableEq

instance {ε α : Type} [DecidableEq ε] [DecidableEq α] : DecidableEq (Except ε α) := fun a b =>
  match a, b with
  | Except.ok x, Except.ok y =>
    if h : x = y then Decidable.isTrue (by rw [h]) else
      Decidable.isFalse (fun he => h (Except.ok.inj he))
  | Except.error x, Except.error y =>
    if h : x = y then Decidable.isTrue (by rw [h]) else
      Decidable.isFalse (fun he => h (Except.error.inj he))
  | Except.ok _, Except.error _ => Decidable.isFalse (fun he => Except.noConfusion he)
  | Except.error _, Except.ok _ => Decidable.isFalse (fun he => Except.noConfusion he)

/-- The `for col_to_explode in cols_to_explode` loop of lines 159-165:
accessing `df_result[col_to_explode]` for an absent column raises
`KeyError`; a column whose cells are all lists is exploded; otherwise a
warning is printed and the column is skipped unchanged. -/
def explodeLoop (f : Frame) (cols : List String) : Except ExplodeErr Frame :=
  match cols with
  | [] => Except.ok f
  | c :: rest =>
    if c ∈ f.cols then
      if f.rows.all (fun r => isListCell r c) then
        explodeLoop (f.explodeCol c) rest
      else
        explodeLoop f rest
    else
      Except.error ExplodeErr.missingColumn

/-- `explode_columns(df_origin, cols_to_select, cols_to_explode)`
(lines 142-173): select the requested columns (a `KeyError`, i.e. a
missing selected column, is reported as `missingColumn` and nothing is
returned), then run the explosion loop. -/
def explode_columns (df : Frame) (cols_to_select cols_to_explode : List String) :
    Except ExplodeErr Frame :=
  if cols_to_select.all (fun c => decide (c ∈ df.cols)) then
    explodeLoop (selectFrame df cols_to_select) cols_to_explode
  else
    Except.error ExplodeErr.missingColumn

/-- A stored delta table: its rows plus the partition columns it was
written with (partitioning is a storage-layout attribute only). -/
structure DeltaTable where
  rows : List Row
  partitionCols : Option (List String)
deriving DecidableEq

/-- Python exceptions relevant to `save_new_data_as_delta`:
`TableNotFoundError` versus any other exception. -/
inductive PyExn where
| tableNotFound
| otherError : String → PyExn
deriving DecidableEq

/-- The saving mode `save_data_as_delta` uses when the caller omits
`mode` (line 93 default and the fallback call at line 139). -/
def defaultMode : String := "overwrite"

/-- Modelled from the spec: the external library's `write_deltalake`
(§4.2 Full Writer) — `overwrite` replaces all data at the location,
`append` adds rows, `error` fails when a table exists, `ignore` is a
no-op when a table exists; absent a table every mode creates it with the
given partition columns. -/
def write_deltalake (state : Option DeltaTable) (df : List Row) (mode : String)
    (partition_by : Option (List String)) : Except PyExn (Option DeltaTable) :=
  match mode, state with
  | "overwrite", _ => Except.ok (some ⟨df, partition_by⟩)
  | "append", some t => Except.ok (some ⟨t.rows ++ df, t.partitionCols⟩)
  | "append", none => Except.ok (some ⟨df, partition_by⟩)
  | "error", some _ => Except.error (PyExn.otherError "table already exists")
  | "error", none => Except.ok (some ⟨df, partition_by⟩)
  | "ignore", some t => Except.ok (some t)
  | "ignore", none => Except.ok (some ⟨df, partition_by⟩)
  | _, _ => Except.error (PyExn.otherError "invalid mode")

/-- `save_data_as_delta(df, path, mode, partition_cols)` (lines 93-109):
a direct call into the library full write, the state being the table
currently stored at `path`. -/
def save_data_as_delta (df : List Row) (state : Option DeltaTable) (mode : String)
    (partition_cols : Option (List String)) : Except PyExn (Option DeltaTable) :=
  write_deltalake state df mode partition_cols

/-- Modelled from the spec: the external library's insert-only merge
(§4.1) — each source row with no predicate-match in the existing target
is appended; target rows are never modified or deleted; matching is
against the target state at the start of the merge. -/
def mergeInsert (target source : List Row) (pred : Row → Row → Bool) : List Row :=
  target ++ source.filter (fun s => !(target.any (fun t => pred s t)))

/-- `save_new_data_as_delta(new_data, data_path, predicate, partition_cols)`
(lines 112-139): when a table exists at the location, merge with
`when_not_matched_insert_all`; when opening raises `TableNotFoundError`,
fall back to `save_data_as_delta` with its default (overwrite) mode and
the given partition columns. -/
def save_new_data_as_delta (new_data : List Row) (state : Option DeltaTable)
    (predicate : Row → Row → Bool) (partition_cols : Option (List String)) :
    Except PyExn (Option DeltaTable) :=
  match state with
  | some dt => Except.ok (some ⟨mergeInsert dt.rows new_data predicate, dt.partitionCols⟩)
  | none => save_data_as_delta new_data none defaultMode partition_cols

/-- A key predicate such as `"target.StopID = source.StopID"`
(lines 237, 356, 372): the source row matches the target row when every
named key column holds the same value on both sides. -/
def keyPred (keys : List String) (s t : Row) : Bool :=
  keys.all (fun k => decide (List.lookup k s = List.lookup k t))

/-- Exception-level rendering of the `try` block of lines 124-135,
with the outcome of `DeltaTable(data_path)` and of the merge-execute call
abstracted as `Except` values so that arbitrary library failures
(malformed predicate, I/O failure, schema mismatch) can be represented:
`except TableNotFoundError` catches exactly `tableNotFound` and runs the
fallback full write; any other exception propagates to the caller. -/
def save_new_data_as_delta_exc (new_data : List Row)
    (openRes : Except PyExn DeltaTable)
    (mergeExec : DeltaTable → List Row → Except PyExn (Option DeltaTable))
    (partition_cols : Option (List String)) : Except PyExn (Option DeltaTable) :=
  match openRes.bind (fun dt => mergeExec dt new_data) with
  | Except.ok res => Except.ok res
  | Except.error PyExn.tableNotFound => save_data_as_delta new_data none defaultMode partition_cols
  | Except.error e => Except.error e

/-- A JSON value, as produced by `response.json()`. -/
inductive Json where
| obj : List (String × Json) → Json
| arr : List Json → Json
| str : String → Json
| num : Int → Json
| null : Json

/-- An HTTP response: its status code and its body parsed as JSON
(`none` when the body is not valid JSON, so `response.json()` raises). -/
structure HttpResponse where
  status : Nat
  jsonBody : Option Json

/-- The outcome of `requests.get` (line 32): either a response was
received or a `RequestException` (connection failure etc.) was raised. -/
inductive ReqResult where
| success : HttpResponse → ReqResult
| requestError : ReqResult

/-- `data[data_field]` (line 38): succeeds only when the JSON value is an
object containing the field; any other shape raises and is caught. -/
def getJsonField (j : Json) (field : String) : Option Json :=
  match j with
  | Json.obj kvs => List.lookup field kvs
  | _ => none

/-- `get_data(base_url, endpoint, data_field, ...)` (lines 16-47):
`raise_for_status` raises (modelled from the documented `requests`
semantics: it raises exactly for status codes 400-599) and the outer
`except` returns `None`; a body that is not JSON, or whose shape does not
contain `data_field`, hits the inner `except` and returns `None`;
otherwise the extracted field is returned. -/
def get_data (result : ReqResult) (data_field : String) : Option Json :=
  match result with
  | ReqResult.requestError => none
  | ReqResult.success resp =>
    if 400 ≤ resp.status ∧ resp.status < 600 then none
    else
      match resp.jsonBody with
      | none => none
      | some j =>
        match getJsonField j data_field with
        | none => none
        | some d => some d

/-- A wall-clock reading, as returned by `datetime.now()` (line 82). -/
structure PyDateTime where
  year : Nat
  month : Nat
  day : Nat
  hour : Nat
  minute : Nat
  second : Nat

/-- Modelled from the documented `strftime` semantics of the format
string at line 88: each of `%H`, `%M`, `%S` renders as exactly two
digits (zero-padded), separated by colons. -/
def strftime_HMS (t : PyDateTime) : String :=
  String.mk [Nat.digitChar (t.hour / 10), Nat.digitChar (t.hour % 10), ':',
             Nat.digitChar (t.minute / 10), Nat.digitChar (t.minute % 10), ':',
             Nat.digitChar (t.second / 10), Nat.digitChar (t.second % 10)]

/-- `df[col] = scalar`: pandas broadcasts the scalar to every row,
overwriting the column when it already exists and appending it at the end
of the column order otherwise. -/
def setColApp (r : Row) (c : String) (v : Value) : Row :=
  if (List.lookup c r).isSome then setCol r c v else r ++ [(c, v)]

/-- `build_table_incremental(json_data)` (lines 68-90): build the frame
from the records and stamp every row with the date and the formatted time
of the single `datetime.now()` reading taken at line 82, passed here as
the explicit parameter `now`. -/
def build_table_incremental (json_data : List Row) (now : PyDateTime) : List Row :=
  json_data.map (fun r =>
    setColApp (setColApp r "fecha_consulta" (Value.scal (Scalar.dateS now.year now.month now.day)))
      "hora_consulta" (vStr (strftime_HMS now)))

/-- A fresh heap address: strictly larger than every allocated address. -/
def freshAddr (h : List (Nat × Frame)) : Nat :=
  (h.map Prod.fst).foldr max 0 + 1

/-- Heap-level rendering of `explode_columns` (lines 154-173), for the
frame-effect analysis: `df_origin` lives at address `origin`; the
selection, the `.copy()` at line 156 and every `explode` call return
fresh frames (pandas never writes through to `df_origin` here), so the
only heap effect is the allocation of the result frame; on failure the
heap is untouched and no result address is returned. -/
def explode_columns_heap (h : List (Nat × Frame)) (origin : Nat)
    (cols_to_select cols_to_explode : List String) :
    List (Nat × Frame) × Except ExplodeErr Nat :=
  match List.lookup origin h with
  | none => (h, Except.error ExplodeErr.otherErr)
  | some df =>
    match explode_columns df cols_to_select cols_to_explode with
    | Except.error e => (h, Except.error e)
    | Except.ok f => ((freshAddr h, f) :: h, Except.ok (freshAddr h))

/-! ## Facts about the merge-based upsert -/

/-- A key predicate holds reflexively: a row always agrees with itself on
every key column. -/
lemma keyPred_refl (keys : List String) (s : Row) : keyPred keys s s = true := by
  simp [keyPred, List.all_eq_true]

/-- Merging into an empty target inserts every source row. -/
lemma mergeInsert_nil (B : List Row) (p : Row → Row → Bool) :
    mergeInsert [] B p = B := by
  simp [mergeInsert]

/-- Re-merging the same batch over a predicate that is reflexive on the
batch inserts nothing further. -/
lemma mergeInsert_absorb (T B : List Row) (p : Row → Row → Bool)
    (hrefl : ∀ b ∈ B, p b b = true) :
    mergeInsert (mergeInsert T B p) B p = mergeInsert T B p := by
  unfold mergeInsert
  have h : ∀ b ∈ B,
      ((T ++ B.filter fun s => !(T.any fun t => p s t)).any fun t => p b t) = true := by
    intro b hb
    rw [List.any_append]
    cases hT : (T.any fun t => p b t) with
    | true => rw [Bool.true_or]
    | false =>
      have hbF : b ∈ B.filter fun s => !(T.any fun t => p s t) :=
        List.mem_filter.mpr ⟨hb, by rw [hT]; rfl⟩
      have hF : ((B.filter fun s => !(T.any fun t => p s t)).any fun t => p b t) = true :=
        List.any_eq_true.mpr ⟨b, hbF, hrefl b hb⟩
      rw [hF, Bool.or_true]
  have hnil : (B.filter fun s =>
      !((T ++ B.filter fun s => !(T.any fun t => p s t)).any fun t => p s t)) = [] := by
    rw [List.filter_eq_nil_iff]
    intro b hb
    rw [h b hb]
    simp
  rw [hnil, List.append_nil]

/-- Number of occurrences of a given row in a list of rows. -/
def countRow (l : List Row) (r : Row) : Nat :=
  l.countP (fun x => decide (x = r))

/-- C1: upsert is idempotent — whatever table state the first
`save_new_data_as_delta` call produced for a batch and a key predicate, a
second call with the same batch and predicate leaves that state exactly
as it is: re-applying identical input adds no duplicate rows. -/
theorem upsert_idempotent_c1 (st : Option DeltaTable) (B : List Row)
    (keys : List String) (pcols : Option (List String)) (s1 : Option DeltaTable)
    (h1 : save_new_data_as_delta B st (keyPred keys) pcols = Except.ok s1) :
    save_new_data_as_delta B s1 (keyPred keys) pcols = Except.ok s1 := by
  have hrefl : ∀ b ∈ B, keyPred keys b b = true := fun b _ => keyPred_refl keys b
  cases st with
  | none =>
    have h1' : Except.ok (α := Option DeltaTable) (some ⟨B, pcols⟩) = Except.ok s1 := h1
    have hs1 : s1 = some ⟨B, pcols⟩ := (Except.ok.inj h1').symm
    subst hs1
    have hBB : mergeInsert B B (keyPred keys) = B := by
      have h2 := mergeInsert_absorb [] B (keyPred keys) hrefl
      rwa [mergeInsert_nil] at h2
    simp only [save_new_data_as_delta, hBB]
  | some dt =>
    have h1' : Except.ok (α := Option DeltaTable)
        (some ⟨mergeInsert dt.rows B (keyPred keys), dt.partitionCols⟩) = Except.ok s1 := h1
    have hs1 : s1 = some ⟨mergeInsert dt.rows B (keyPred keys), dt.partitionCols⟩ :=
      (Except.ok.inj h1').symm
    subst hs1
    simp only [save_new_data_as_delta, mergeInsert_absorb dt.rows B (keyPred keys) hrefl]

/-- C2 counterexample: against target {(id=1,v=A)} and a source batch
holding the row (id=2,v=C) twice, the merge inserts the row twice, so a
source row with no predicate-match does not exist "exactly once" in the
result. -/
theorem upsert_duplicate_counterexample_c2 :
    save_new_data_as_delta
        [[("id", vInt 2), ("v", vStr "C")], [("id", vInt 2), ("v", vStr "C")]]
        (some ⟨[[("id", vInt 1), ("v", vStr "A")]], none⟩)
        (keyPred ["id"]) none
      = Except.ok (some ⟨[[("id", vInt 1), ("v", vStr "A")],
          [("id", vInt 2), ("v", vStr "C")], [("id", vInt 2), ("v", vStr "C")]], none⟩)
    ∧ (∀ t ∈ [[("id", vInt 1), ("v", vStr "A")]],
        keyPred ["id"] [("id", vInt 2), ("v", vStr "C")] t = false)
    ∧ countRow [[("id", vInt 1), ("v", vStr "A")],
        [("id", vInt 2), ("v", vStr "C")], [("id", vInt 2), ("v", vStr "C")]]
        [("id", vInt 2), ("v", vStr "C")] = 2 := by
  refine ⟨rfl, by decide, by decide⟩

/-- C2 amended: upsert against an existing table is insert-only — after a
successful merge, each source row with no predicate-match in the prior
table state occurs in the result exactly as many times as it occurs in
the source batch (hence exactly once when the batch lists it once), and
every pre-existing row is present unchanged, the prior table being an
unmodified initial segment of the result. -/
theorem upsert_insert_only_c2 (T B : List Row) (keys : List String)
    (pc : Option (List String)) (pcols : Option (List String)) (s : Row)
    (hnm : ∀ t ∈ T, keyPred keys s t = false) :
    save_new_data_as_delta B (some ⟨T, pc⟩) (keyPred keys) pcols
      = Except.ok (some ⟨mergeInsert T B (keyPred keys), pc⟩)
    ∧ countRow (mergeInsert T B (keyPred keys)) s = countRow B s
    ∧ ∃ rest, mergeInsert T B (keyPred keys) = T ++ rest := by
  refine ⟨rfl, ?_, ⟨_, rfl⟩⟩
  unfold mergeInsert countRow
  rw [List.countP_append]
  have hT0 : T.countP (fun x => decide (x = s)) = 0 := by
    rw [List.countP_eq_zero]
    intro t ht hts
    have : t = s := of_decide_eq_true hts
    subst this
    have := hnm t ht
    rw [keyPred_refl] at this
    exact Bool.noConfusion this
  have hFB : (B.filter fun x => !(T.any fun t => keyPred keys x t)).countP
      (fun x => decide (x = s)) = B.countP (fun x => decide (x = s)) := by
    rw [List.countP_filter]
    apply List.countP_congr
    intro x _
    by_cases hxs : x = s
    · subst hxs
      have hany : (T.any fun t => keyPred keys x t) = false :=
        List.any_eq_false.mpr (fun t ht => by rw [hnm t ht]; exact Bool.noConfusion)
      rw [hany]
      simp
    · simp [hxs]
  rw [hT0, hFB, Nat.zero_add]

/-- C2 witness: a concrete instance of the amended insert-only theorem,
with target {(id=1)} and batch {(id=2)}. -/
theorem upsert_insert_only_c2_witness :
    (∀ t ∈ [[("id", vInt 1)]], keyPred ["id"] [("id", vInt 2)] t = false)
    ∧ (save_new_data_as_delta [[("id", vInt 2)]] (some ⟨[[("id", vInt 1)]], none⟩)
          (keyPred ["id"]) none
        = Except.ok (some ⟨mergeInsert [[("id", vInt 1)]] [[("id", vInt 2)]] (keyPred ["id"]), none⟩)
      ∧ countRow (mergeInsert [[("id", vInt 1)]] [[("id", vInt 2)]] (keyPred ["id"]))
          [("id", vInt 2)] = countRow [[("id", vInt 2)]] [("id", vInt 2)]
      ∧ ∃ rest, mergeInsert [[("id", vInt 1)]] [[("id", vInt 2)]] (keyPred ["id"])
          = [[("id", vInt 1)]] ++ rest) :=
  ⟨by decide,
   upsert_insert_only_c2 [[("id", vInt 1)]] [[("id", vInt 2)]] ["id"] none none
     [("id", vInt 2)] (by decide)⟩

/-- C1 witness: a concrete second upsert of the batch {(id=2)} over the
state the first upsert produced leaves that state unchanged. -/
theorem upsert_idempotent_c1_witness :
    save_new_data_as_delta [[("id", vInt 2)]]
        (some ⟨[[("id", vInt 1)], [("id", vInt 2)]], none⟩) (keyPred ["id"]) none
      = Except.ok (some ⟨[[("id", vInt 1)], [("id", vInt 2)]], none⟩) :=
  upsert_idempotent_c1 (some ⟨[[("id", vInt 1)]], none⟩) [[("id", vInt 2)]] ["id"] none
    (some ⟨[[("id", vInt 1)], [("id", vInt 2)]], none⟩) (by decide)

/-- C4: when no table exists at the location, `save_new_data_as_delta` is
exactly the fallback full write in the default mode, which is
`"overwrite"`, with the given partition columns applied: the resulting
table holds precisely the batch and that partitioning. -/
theorem upsert_fallback_c4 (B : List Row) (p : Row → Row → Bool)
    (pcols : Option (List String)) :
    save_new_data_as_delta B none p pcols = save_data_as_delta B none defaultMode pcols
    ∧ save_data_as_delta B none defaultMode pcols = write_deltalake none B "overwrite" pcols
    ∧ save_new_data_as_delta B none p pcols = Except.ok (some ⟨B, pcols⟩) :=
  ⟨rfl, rfl, rfl⟩

/-- C5: in the exception-level model of the try-block, a body failure
with `TableNotFoundError` is the only one recovered (it triggers the
fallback overwrite full write); a failure with any other exception
propagates unchanged to the caller. -/
theorem upsert_error_propagation_c5 (new_data : List Row)
    (openRes : Except PyExn DeltaTable)
    (mergeExec : DeltaTable → List Row → Except PyExn (Option DeltaTable))
    (pcols : Option (List String)) (e : PyExn)
    (hbody : openRes.bind (fun dt => mergeExec dt new_data) = Except.error e) :
    save_new_data_as_delta_exc new_data openRes mergeExec pcols
      = if e = PyExn.tableNotFound then Except.ok (some ⟨new_data, pcols⟩)
        else Except.error e := by
  unfold save_new_data_as_delta_exc
  rw [hbody]
  cases e with
  | tableNotFound => rw [if_pos rfl]; rfl
  | otherError m => rw [if_neg (fun h => PyExn.noConfusion h)]

/-- C5 witness: a concrete storage failure on open propagates to the
caller instead of triggering the fallback write. -/
theorem upsert_error_propagation_c5_witness :
    save_new_data_as_delta_exc [] (Except.error (PyExn.otherError "io failure"))
        (fun dt _ => Except.ok (some dt)) none
      = Except.error (PyExn.otherError "io failure") := by
  have h := upsert_error_propagation_c5 [] (Except.error (PyExn.otherError "io failure"))
    (fun dt _ => Except.ok (some dt)) none (PyExn.otherError "io failure") rfl
  simpa using h

/-! ## Facts about column explosion -/

/-- Association-list lookup skips a head with a different key. -/
lemma lookup_cons_of_ne {α β : Type} [BEq α] [LawfulBEq α] (k a : α) (b : β)
    (es : List (α × β)) (h : a ≠ k) :
    List.lookup a ((k, b) :: es) = List.lookup a es := by
  simp [List.lookup_cons, beq_eq_false_iff_ne.mpr h]

/-- Reading a different column is unaffected by `setCol`. -/
lemma lookup_setCol_ne (r : Row) (c x : String) (v : Value) (hx : x ≠ c) :
    List.lookup x (setCol r c v) = List.lookup x r := by
  induction r with
  | nil => rfl
  | cons p t ih =>
    obtain ⟨k, u⟩ := p
    by_cases hp : k = c
    · have hxk : x ≠ k := fun h => hx (h ▸ hp)
      simp only [setCol, List.map_cons, if_pos hp]
      rw [lookup_cons_of_ne c x v _ hx, lookup_cons_of_ne k x u _ hxk]
      exact ih
    · simp only [setCol, List.map_cons, if_neg hp]
      by_cases hxk : x = k
      · subst hxk
        rw [List.lookup_cons_self, List.lookup_cons_self]
      · rw [lookup_cons_of_ne k x u _ hxk, lookup_cons_of_ne k x u _ hxk]
        exact ih

/-- Reading the written column after `setCol` yields the new value,
provided the column was present. -/
lemma lookup_setCol_self (r : Row) (c : String) (v : Value)
    (h : (List.lookup c r).isSome = true) :
    List.lookup c (setCol r c v) = some v := by
  induction r with
  | nil => simp at h
  | cons p t ih =>
    obtain ⟨k, u⟩ := p
    by_cases hp : k = c
    · simp only [setCol, List.map_cons, if_pos hp]
      exact List.lookup_cons_self
    · have hkc : c ≠ k := fun hck => hp hck.symm
      rw [lookup_cons_of_ne k c u _ hkc] at h
      simp only [setCol, List.map_cons, if_neg hp]
      rw [lookup_cons_of_ne k c u _ hkc]
      exact ih h

/-- `Frame.explodeCol` never changes the column list. -/
lemma explodeCol_cols (f : Frame) (c : String) : (f.explodeCol c).cols = f.cols := rfl

/-- Walking the explosion loop with a column that is absent from the
frame somewhere in the remaining list always fails with `missingColumn`
(the loop preserves the column list, so the absence persists until the
column is reached, unless an earlier column already fails). -/
lemma explodeLoop_missing (cols : List String) : ∀ (f : Frame) (c : String),
    c ∈ cols → c ∉ f.cols → explodeLoop f cols = Except.error ExplodeErr.missingColumn := by
  induction cols with
  | nil => intro f c hc; exact absurd hc (List.not_mem_nil c)
  | cons a rest ih =>
    intro f c hc habs
    by_cases ha : a ∈ f.cols
    · have hca : c ≠ a := fun h => habs (h ▸ ha)
      have hcrest : c ∈ rest := by
        cases List.mem_cons.mp hc with
        | inl h => exact absurd h hca
        | inr h => exact h
      simp only [explodeLoop, if_pos ha]
      by_cases hall : (f.rows.all fun r => isListCell r a) = true
      · rw [if_pos hall]
        exact ih (f.explodeCol a) c hcrest (by rw [explodeCol_cols]; exact habs)
      · rw [if_neg hall]
        exact ih f c hcrest habs
    · simp only [explodeLoop, if_neg ha]

/-- C6: column absence is a hard, all-or-nothing failure — whenever some
name in `cols_to_select` or in `cols_to_explode` is absent from the
source frame's columns, `explode_columns` reports `missingColumn`
(Python: `KeyError`, logged and `None` returned) and yields no frame at
all, unlike the tolerated per-column list-type mismatches. -/
theorem explode_missing_column_c6 (df : Frame) (sel exp : List String) (c : String)
    (hmem : c ∈ sel ∨ c ∈ exp) (habs : c ∉ df.cols) :
    explode_columns df sel exp = Except.error ExplodeErr.missingColumn := by
  by_cases hguard : (sel.all fun x => decide (x ∈ df.cols)) = true
  · have hselcols : ∀ x ∈ sel, x ∈ df.cols := by
      intro x hxs
      exact of_decide_eq_true (List.all_eq_true.mp hguard x hxs)
    have hcexp : c ∈ exp := by
      cases hmem with
      | inl h => exact absurd (hselcols c h) habs
      | inr h => exact h
    have hcsel : c ∉ sel := fun h => habs (hselcols c h)
    simp only [explode_columns, if_pos hguard]
    exact explodeLoop_missing exp (selectFrame df sel) c hcexp hcsel
  · simp only [explode_columns, if_neg hguard]

/-- C6 witness: selecting the absent column `"q"` fails with
`missingColumn` and, separately, exploding the absent column `"q"`
is the same hard failure. -/
theorem explode_missing_column_c6_witness :
    ((("q" : String) ∈ (["q"] : List String) ∨ ("q" : String) ∈ ([] : List String))
      ∧ ("q" : String) ∉ (["r"] : List String))
    ∧ explode_columns ⟨["r"], [[("r", vInt 1)]]⟩ ["q"] []
        = Except.error ExplodeErr.missingColumn :=
  ⟨⟨Or.inl (by decide), by decide⟩,
   explode_missing_column_c6 ⟨["r"], [[("r", vInt 1)]]⟩ ["q"] [] "q"
     (Or.inl (by decide)) (by decide)⟩

/-- C3 counterexample: a source row whose exploded-column cell is the
empty list yields one output row with a null in the exploded column —
not zero output rows as claimed. -/
theorem explode_empty_list_counterexample_c3 :
    explode_columns ⟨["r"], [[("r", Value.listV [])]]⟩ ["r"] ["r"]
      = Except.ok ⟨["r"], [[("r", vNull)]]⟩
    ∧ (1 : Nat) ≠ 0 :=
  ⟨rfl, by decide⟩

/-- C3 amended: when every cell of the exploded column is list-valued,
`explode_columns` succeeds with the selected frame exploded on that
column; each input row whose cell is a non-empty list of length N yields
exactly N output rows, one per successive list element in order, each
equal to the input row except for the exploded column; an input row whose
cell is the empty list yields one output row with a null in the exploded
column; output rows follow source row order (the per-row row groups are
concatenated in source order). -/
theorem explode_cardinality_c3 (df : Frame) (sel : List String) (c : String)
    (hsel : ∀ x ∈ sel, x ∈ df.cols) (hc : c ∈ sel)
    (hlist : ∀ r ∈ (selectFrame df sel).rows, isListCell r c = true) :
    explode_columns df sel [c] = Except.ok ((selectFrame df sel).explodeCol c)
    ∧ ((selectFrame df sel).explodeCol c).rows
        = ((selectFrame df sel).rows.map (fun r => explodeRow r c)).flatten
    ∧ (∀ (r : Row) (l : List Scalar), List.lookup c r = some (Value.listV l) → l ≠ [] →
        explodeRow r c = l.map (fun v => setCol r c (Value.scal v))
        ∧ (explodeRow r c).length = l.length)
    ∧ (∀ r : Row, List.lookup c r = some (Value.listV []) →
        explodeRow r c = [setCol r c vNull])
    ∧ (∀ (r : Row) (v : Value) (x : String), x ≠ c →
        List.lookup x (setCol r c v) = List.lookup x r)
    ∧ (∀ (r : Row) (v : Value), (List.lookup c r).isSome = true →
        List.lookup c (setCol r c v) = some v) := by
  refine ⟨?_, rfl, ?_, ?_, ?_, ?_⟩
  · have hguard : (sel.all fun x => decide (x ∈ df.cols)) = true :=
      List.all_eq_true.mpr (fun x hxx => decide_eq_true (hsel x hxx))
    have hcf : c ∈ (selectFrame df sel).cols := hc
    have hall : ((selectFrame df sel).rows.all fun r => isListCell r c) = true :=
      List.all_eq_true.mpr hlist
    simp only [explode_columns, if_pos hguard, explodeLoop, if_pos hcf, hall, if_true]
  · intro r l hl hlne
    cases l with
    | nil => exact absurd rfl hlne
    | cons a as =>
      constructor
      · simp only [explodeRow, hl]
      · simp only [explodeRow, hl, List.length_map]
  · intro r hl
    simp only [explodeRow, hl]
  · exact fun r v x hx => lookup_setCol_ne r c x v hx
  · exact fun r v h => lookup_setCol_self r c v h

/-- C3 witness: a concrete frame with one row carrying a two-element list
and one row carrying the empty list, exploded on that column. -/
theorem explode_cardinality_c3_witness :
    ((∀ x ∈ (["s", "r"] : List String), x ∈ (["s", "r"] : List String))
      ∧ ("r" : String) ∈ (["s", "r"] : List String)
      ∧ (∀ r ∈ (selectFrame ⟨["s", "r"],
            [[("s", vInt 1), ("r", Value.listV [Scalar.strS "a", Scalar.strS "b"])],
             [("s", vInt 2), ("r", Value.listV [])]]⟩ ["s", "r"]).rows,
          isListCell r "r" = true))
    ∧ explode_columns ⟨["s", "r"],
          [[("s", vInt 1), ("r", Value.listV [Scalar.strS "a", Scalar.strS "b"])],
           [("s", vInt 2), ("r", Value.listV [])]]⟩ ["s", "r"] ["r"]
        = Except.ok ((selectFrame ⟨["s", "r"],
            [[("s", vInt 1), ("r", Value.listV [Scalar.strS "a", Scalar.strS "b"])],
             [("s", vInt 2), ("r", Value.listV [])]]⟩ ["s", "r"]).explodeCol "r") :=
  ⟨⟨by decide, by decide, by decide⟩,
   (explode_cardinality_c3 ⟨["s", "r"],
      [[("s", vInt 1), ("r", Value.listV [Scalar.strS "a", Scalar.strS "b"])],
       [("s", vInt 2), ("r", Value.listV [])]]⟩ ["s", "r"] "r"
      (by decide) (by decide) (by decide)).1⟩

/-- C7: a column listed in `cols_to_explode` that has some non-list cell
is skipped — processing it leaves the frame exactly as it was, the loop
moving on to the remaining columns — while any other explode-target
column whose cells are all list-valued is still exploded normally. -/
theorem explode_nonlist_tolerance_c7 (df : Frame) (sel : List String) (c : String)
    (rest : List String) (hsel : ∀ x ∈ sel, x ∈ df.cols) (hc : c ∈ sel)
    (hnl : ((selectFrame df sel).rows.all fun r => isListCell r c) = false) :
    explode_columns df sel (c :: rest) = explodeLoop (selectFrame df sel) rest
    ∧ (∀ c2, c2 ∈ sel →
        ((selectFrame df sel).rows.all fun r => isListCell r c2) = true →
        explode_columns df sel [c, c2] = Except.ok ((selectFrame df sel).explodeCol c2)) := by
  have hguard : (sel.all fun x => decide (x ∈ df.cols)) = true :=
    List.all_eq_true.mpr (fun x hxx => decide_eq_true (hsel x hxx))
  have hcf : c ∈ (selectFrame df sel).cols := hc
  constructor
  · simp only [explode_columns, if_pos hguard, explodeLoop, if_pos hcf, hnl]
    rw [if_neg Bool.false_ne_true]
  · intro c2 hc2 hall
    have hc2f : c2 ∈ (selectFrame df sel).cols := hc2
    simp only [explode_columns, if_pos hguard, explodeLoop, if_pos hcf, hnl,
      if_pos hc2f, hall, if_true]
    rw [if_neg Bool.false_ne_true]

/-- C7 witness: column `"a"` holds a non-list cell and is skipped;
column `"b"` holds lists in every row and is exploded. -/
theorem explode_nonlist_tolerance_c7_witness :
    ((∀ x ∈ (["a", "b"] : List String), x ∈ (["a", "b"] : List String))
      ∧ ("a" : String) ∈ (["a", "b"] : List String)
      ∧ ((selectFrame ⟨["a", "b"],
            [[("a", vInt 7), ("b", Value.listV [Scalar.strS "x", Scalar.strS "y"])]]⟩
            ["a", "b"]).rows.all fun r => isListCell r "a") = false)
    ∧ explode_columns ⟨["a", "b"],
          [[("a", vInt 7), ("b", Value.listV [Scalar.strS "x", Scalar.strS "y"])]]⟩
          ["a", "b"] ["a"]
        = explodeLoop (selectFrame ⟨["a", "b"],
            [[("a", vInt 7), ("b", Value.listV [Scalar.strS "x", Scalar.strS "y"])]]⟩
            ["a", "b"]) [] :=
  ⟨⟨by decide, by decide, by decide⟩,
   (explode_nonlist_tolerance_c7 ⟨["a", "b"],
      [[("a", vInt 7), ("b", Value.listV [Scalar.strS "x", Scalar.strS "y"])]]⟩
      ["a", "b"] "a" [] (by decide) (by decide) (by decide)).1⟩

/-! ## Facts about the fetch step and the incremental stamping -/

/-- C8 counterexample: a response with the non-2xx status 300 and a
well-shaped JSON body is not treated as a fetch failure — `get_data`
returns the extracted data, because `raise_for_status` only raises for
statuses 400-599. -/
theorem get_data_non2xx_counterexample_c8 :
    get_data (ReqResult.success ⟨300, some (Json.obj [("Stops", Json.arr [])])⟩) "Stops"
      = some (Json.arr [])
    ∧ ¬(200 ≤ (300 : Nat) ∧ (300 : Nat) ≤ 299) :=
  ⟨rfl, by decide⟩

/-- C8 amended: every fetch failure — a raised request exception, an
HTTP error status (400-599, the statuses `raise_for_status` raises for),
a body that is not JSON, or a JSON body without the requested field —
makes `get_data` log and return an absent value (`none`); being a total
function into `Option`, it never throws, so callers must null-check. -/
theorem get_data_failure_c8 (res : ReqResult) (field : String)
    (h : res = ReqResult.requestError
      ∨ ∃ resp, res = ReqResult.success resp ∧
          ((400 ≤ resp.status ∧ resp.status < 600)
            ∨ resp.jsonBody = none
            ∨ ∃ j, resp.jsonBody = some j ∧ getJsonField j field = none)) :
    get_data res field = none := by
  rcases h with rfl | ⟨resp, rfl, hcase⟩
  · rfl
  · rcases hcase with hst | hjb | ⟨j, hjb, hfield⟩
    · simp only [get_data, if_pos hst]
    · simp only [get_data]
      by_cases hst : 400 ≤ resp.status ∧ resp.status < 600
      · rw [if_pos hst]
      · rw [if_neg hst, hjb]
    · simp only [get_data]
      by_cases hst : 400 ≤ resp.status ∧ resp.status < 600
      · rw [if_pos hst]
      · rw [if_neg hst, hjb]
        show (match getJsonField j field with
          | none => none
          | some d => some d) = none
        rw [hfield]

/-- C8 witness: a 404 response yields `none`. -/
theorem get_data_failure_c8_witness :
    get_data (ReqResult.success ⟨404, some (Json.obj [("Stops", Json.arr [])])⟩) "Stops"
      = none :=
  get_data_failure_c8 (ReqResult.success ⟨404, some (Json.obj [("Stops", Json.arr [])])⟩)
    "Stops" (Or.inr ⟨⟨404, some (Json.obj [("Stops", Json.arr [])])⟩, rfl, Or.inl (by decide)⟩)

/-- A member of a list of naturals is bounded by the folded maximum. -/
lemma mem_le_foldr_max (n : Nat) (l : List Nat) (h : n ∈ l) : n ≤ l.foldr max 0 := by
  induction l with
  | nil => exact absurd h (List.not_mem_nil n)
  | cons a t ih =>
    cases List.mem_cons.mp h with
    | inl he => subst he; exact le_max_left _ _
    | inr ht => exact le_trans (ih ht) (le_max_right _ _)

/-- A key with a successful lookup is among the stored keys. -/
lemma lookup_mem_keys {β : Type} (k : Nat) (h : List (Nat × β)) (v : β)
    (hl : List.lookup k h = some v) : k ∈ h.map Prod.fst := by
  induction h with
  | nil => simp at hl
  | cons p t ih =>
    obtain ⟨a, b⟩ := p
    by_cases hka : k = a
    · subst hka
      simp [List.map_cons]
    · rw [lookup_cons_of_ne a k b t hka] at hl
      simpa [List.map_cons] using Or.inr (ih hl)

/-- C9: `explode_columns` never mutates its input — in the heap-level
rendering of the call, the frame stored at the input's address is the
same after the call as before, whether the call succeeds (allocating the
result at a fresh address) or fails (leaving the heap untouched). -/
theorem explode_no_mutation_c9 (h : List (Nat × Frame)) (origin : Nat)
    (sel exp : List String) (df : Frame)
    (hdf : List.lookup origin h = some df) :
    List.lookup origin (explode_columns_heap h origin sel exp).1 = some df := by
  simp only [explode_columns_heap, hdf]
  cases hres : explode_columns df sel exp with
  | error e => exact hdf
  | ok f =>
    have hmem := lookup_mem_keys origin h df hdf
    have hle := mem_le_foldr_max origin (h.map Prod.fst) hmem
    have hne : origin ≠ freshAddr h := by
      unfold freshAddr
      omega
    show List.lookup origin ((freshAddr h, f) :: h) = some df
    rw [lookup_cons_of_ne (freshAddr h) origin f h hne]
    exact hdf

/-- C9 witness: a concrete one-frame heap is unchanged at the input's
address by a successful explode call. -/
theorem explode_no_mutation_c9_witness :
    List.lookup 0 (explode_columns_heap [(0, ⟨["r"], [[("r", Value.listV [Scalar.intS 3])]]⟩)]
        0 ["r"] ["r"]).1
      = some ⟨["r"], [[("r", Value.listV [Scalar.intS 3])]]⟩ :=
  explode_no_mutation_c9 [(0, ⟨["r"], [[("r", Value.listV [Scalar.intS 3])]]⟩)] 0 ["r"] ["r"]
    ⟨["r"], [[("r", Value.listV [Scalar.intS 3])]]⟩ (by decide)

/-- Appending or overwriting a column then reading it back yields the
written value. -/
lemma lookup_setColApp_self (r : Row) (c : String) (v : Value) :
    List.lookup c (setColApp r c v) = some v := by
  unfold setColApp
  by_cases h : (List.lookup c r).isSome = true
  · rw [if_pos h]
    exact lookup_setCol_self r c v h
  · rw [if_neg h]
    have hnone : List.lookup c r = none := by
      cases hl : List.lookup c r with
      | none => rfl
      | some x => rw [hl] at h; simp at h
    rw [List.lookup_append, hnone, Option.none_or]
    exact List.lookup_cons_self

/-- Appending or overwriting a column leaves reads of other columns
unchanged. -/
lemma lookup_setColApp_ne (r : Row) (c x : String) (v : Value) (hx : x ≠ c) :
    List.lookup x (setColApp r c v) = List.lookup x r := by
  unfold setColApp
  by_cases h : (List.lookup c r).isSome = true
  · rw [if_pos h]
    exact lookup_setCol_ne r c x v hx
  · rw [if_neg h, List.lookup_append]
    have hsingle : List.lookup x [(c, v)] = none := by
      simp [List.lookup_cons, beq_eq_false_iff_ne.mpr hx]
    rw [hsingle, Option.or_none]

/-- C10: every row produced by `build_table_incremental` carries the
same extraction date `fecha_consulta` and the same extraction time
`hora_consulta`, both taken from the one clock reading `now` made at
call time, and the time string has the `HH:MM:SS` shape: two zero-padded
digits per field, eight characters, colons separating the fields. -/
theorem build_table_stamp_c10 (rows : List Row) (now : PyDateTime) (r : Row)
    (hr : r ∈ build_table_incremental rows now) :
    List.lookup "fecha_consulta" r
      = some (Value.scal (Scalar.dateS now.year now.month now.day))
    ∧ List.lookup "hora_consulta" r = some (vStr (strftime_HMS now))
    ∧ (strftime_HMS now).length = 8
    ∧ (strftime_HMS now).data
        = [Nat.digitChar (now.hour / 10), Nat.digitChar (now.hour % 10), ':',
           Nat.digitChar (now.minute / 10), Nat.digitChar (now.minute % 10), ':',
           Nat.digitChar (now.second / 10), Nat.digitChar (now.second % 10)] := by
  obtain ⟨r0, hr0, rfl⟩ := List.mem_map.mp hr
  refine ⟨?_, ?_, rfl, rfl⟩
  · have hne : ("fecha_consulta" : String) ≠ "hora_consulta" := by decide
    rw [lookup_setColApp_ne _ _ _ _ hne, lookup_setColApp_self]
  · rw [lookup_setColApp_self]

/-- C10 witness: one concrete record stamped at 07:04:30. -/
theorem build_table_stamp_c10_witness :
    List.lookup "fecha_consulta"
        [("a", vInt 5), ("fecha_consulta", Value.scal (Scalar.dateS 2026 10 12)),
         ("hora_consulta", vStr "07:04:30")]
      = some (Value.scal (Scalar.dateS 2026 10 12))
    ∧ List.lookup "hora_consulta"
        [("a", vInt 5), ("fecha_consulta", Value.scal (Scalar.dateS 2026 10 12)),
         ("hora_consulta", vStr "07:04:30")]
      = some (vStr (strftime_HMS ⟨2026, 10, 12, 7, 4, 30⟩))
    ∧ (strftime_HMS ⟨2026, 10, 12, 7, 4, 30⟩).length = 8
    ∧ (strftime_HMS ⟨2026, 10, 12, 7, 4, 30⟩).data
        = [Nat.digitChar (7 / 10), Nat.digitChar (7 % 10), ':',
           Nat.digitChar (4 / 10), Nat.digitChar (4 % 10), ':',
           Nat.digitChar (30 / 10), Nat.digitChar (30 % 10)] :=
  build_table_stamp_c10 [[("a", vInt 5)]] ⟨2026, 10, 12, 7, 4, 30⟩
    [("a", vInt 5), ("fecha_consulta", Value.scal (Scalar.dateS 2026 10 12)),
     ("hora_consulta", vStr "07:04:30")] (by decide)
